import Mathlib

/-!
Verification of the motion-profile engine of `axis.py` (VirtualMotorController).

The Python class `Axis` is shallowly embedded: its instance fields become the
fields of the structure `Axis`, every method becomes a Lean function that takes
the pre-state (and an explicit `now : ℝ` timestamp wherever the Python code
reads the wall clock) and returns the post-state, paired with the returned
value where the method's return value matters.  Python floats are idealised as
real numbers; Python 2's `int(round x)` is `pyRound`.
-/

namespace VMC

/-- Python 2 `int(round x)`: round half away from zero. -/
noncomputable def pyRound (x : ℝ) : ℤ :=
  if 0 ≤ x then ⌊x + 1 / 2⌋ else -⌊-x + 1 / 2⌋

/-- Modelled from the spec: the Motion Status Reporter (`status.py` is not part
of the sources; §6 of the spec gives its interface: `setError(flag, message)`,
`setMoving()`, `setDoneMoving()` and a readable `doneMoving` flag). -/
structure Status where
  errorFlag : Bool
  errorMessage : String
  doneMoving : Bool
deriving Repr

/-- Modelled from the spec: `setError(flag, message)` records the error. -/
def Status.setError (s : Status) (flag : Bool) (msg : String) : Status :=
  { s with errorFlag := flag, errorMessage := msg }

/-- Modelled from the spec: `setMoving()` clears the `doneMoving` flag. -/
def Status.setMoving (s : Status) : Status :=
  { s with doneMoving := false }

/-- Modelled from the spec: `setDoneMoving()` sets the `doneMoving` flag. -/
def Status.setDoneMoving (s : Status) : Status :=
  { s with doneMoving := true }

/-- The instance state of the Python class `Axis` (`axis.py`, `__init__`). -/
structure Axis where
  velocity : ℝ
  baseVelocity : ℝ
  acceleration : ℝ
  deceleration : ℝ
  highLimit : ℤ
  lowLimit : ℤ
  moveStartTime : Option ℝ
  abortTime : Option ℝ
  lastPosition : ℝ
  currentPosition : ℝ
  currentDisplacement : ℝ
  targetPosition : ℤ
  direction : ℤ
  moveVelocity : ℝ
  accelDuration : ℝ
  accelDistance : ℝ
  decelDuration : ℝ
  decelDistance : ℝ
  moveDistance : ℝ
  constVelDuration : ℝ
  decelStartTime : ℝ
  moveDuration : ℝ
  enforceLimits : Bool
  status : Status

/-- `Axis.__init__`: the default axis state. -/
def initAxis : Axis where
  velocity := 400
  baseVelocity := 0
  acceleration := 400
  deceleration := 400
  highLimit := 40000
  lowLimit := -40000
  moveStartTime := none
  abortTime := none
  lastPosition := 0
  currentPosition := 0
  currentDisplacement := 0
  targetPosition := 0
  direction := 0
  moveVelocity := 400
  accelDuration := 0
  accelDistance := 0
  decelDuration := 0
  decelDistance := 0
  moveDistance := 0
  constVelDuration := 0
  decelStartTime := 0
  moveDuration := 0
  enforceLimits := false
  status := { errorFlag := false, errorMessage := "", doneMoving := true }

/-- `Axis.move(targetPosition)`, with the wall-clock read `datetime.now()`
passed in as `now`.  The first statement of the method unconditionally sets
`lastPosition = currentPosition`; then the limit checks run, and on success the
trapezoidal (or, for short moves, triangular) profile is planned. -/
noncomputable def move (a : Axis) (now : ℝ) (target : ℝ) : Axis :=
  let a1 := { a with lastPosition := a.currentPosition }
  if a1.enforceLimits = true ∧ target > (a1.highLimit : ℝ) then
    { a1 with status := a1.status.setError true "Target position exceeds high limit" }
  else if a1.enforceLimits = true ∧ target < (a1.lowLimit : ℝ) then
    { a1 with status := a1.status.setError true "Target position exceeds low limit" }
  else
    let tp := pyRound target
    let dir : ℤ := if (tp : ℝ) < a1.lastPosition then -1 else 1
    let mD := |(tp : ℝ) - a1.lastPosition|
    let aDur := (a1.velocity - a1.baseVelocity) / a1.acceleration
    let aDist := 0.5 * (a1.velocity - a1.baseVelocity) * aDur + a1.baseVelocity * aDur
    let dDur := (a1.velocity - a1.baseVelocity) / a1.deceleration
    let dDist := 0.5 * (a1.velocity - a1.baseVelocity) * dDur + a1.baseVelocity * dDur
    if mD < aDist + dDist then
      let pV := Real.sqrt (2 * a1.acceleration * a1.deceleration * mD /
        (a1.acceleration + a1.deceleration))
      let aDur2 := pV / a1.acceleration
      let aDist2 := 0.5 * pV * aDur2
      let dDur2 := (pV - a1.baseVelocity) / a1.deceleration
      let dDist2 := 0.5 * (pV - a1.baseVelocity) * dDur2 + a1.baseVelocity * dDur2
      { a1 with
          moveStartTime := some now
          targetPosition := tp
          direction := dir
          moveDistance := mD
          moveVelocity := pV
          accelDuration := aDur2
          accelDistance := aDist2
          decelDuration := dDur2
          decelDistance := dDist2
          constVelDuration := 0
          decelStartTime := aDur2 + 0
          moveDuration := aDur2 + 0 + dDur2 }
    else
      let cVD := (mD - aDist - dDist) / a1.velocity
      { a1 with
          moveStartTime := some now
          targetPosition := tp
          direction := dir
          moveDistance := mD
          moveVelocity := a1.velocity
          accelDuration := aDur
          accelDistance := aDist
          decelDuration := dDur
          decelDistance := dDist
          constVelDuration := cVD
          decelStartTime := aDur + cVD
          moveDuration := aDur + cVD + dDur }

/-- `Axis.stop()`, with `datetime.now()` passed in as `now`.
If the axis is at rest the abort timestamp is cleared; if an abort is already
pending nothing happens; otherwise `abortTime` is recorded and the profile is
re-planned according to the phase the elapsed time falls into. -/
noncomputable def stop (a : Axis) (now : ℝ) : Axis :=
  match a.moveStartTime with
  | none => { a with abortTime := none }
  | some t0 =>
    match a.abortTime with
    | some _ => a
    | none =>
      let e := now - t0
      let a1 := { a with abortTime := some now }
      if e < a1.accelDuration then
        let aDist := 0.5 * a1.acceleration * e ^ 2 + a1.baseVelocity * e
        let pV := a1.acceleration * e + a1.baseVelocity
        let dDur := (pV - a1.baseVelocity) / a1.deceleration
        let dDist := 0.5 * (pV - a1.baseVelocity) * dDur + a1.baseVelocity * dDur
        { a1 with
            accelDuration := e
            accelDistance := aDist
            constVelDuration := 0
            decelStartTime := e
            decelDuration := dDur
            decelDistance := dDist
            moveDistance := aDist + dDist
            moveDuration := e + dDur
            moveVelocity := pV }
      else if e < a1.decelStartTime then
        { a1 with
            decelStartTime := e
            constVelDuration := e - a1.accelDuration
            moveDistance := a1.accelDistance + a1.moveVelocity * (e - a1.accelDuration) +
              a1.decelDistance
            moveDuration := a1.accelDuration + (e - a1.accelDuration) + a1.decelDuration }
      else
        a1

/-- The displacement computed by `Axis.readPosition` while in the acceleration
phase (`movingTimeSeconds < accelDuration`). -/
noncomputable def dispAccel (a : Axis) (t : ℝ) : ℝ :=
  a.baseVelocity * t + 0.5 * a.acceleration * t * t

/-- The displacement computed by `Axis.readPosition` while in the
constant-velocity phase (`accelDuration <= movingTimeSeconds < decelStartTime`). -/
noncomputable def dispCruise (a : Axis) (t : ℝ) : ℝ :=
  a.baseVelocity * t + 0.5 * a.moveVelocity * a.accelDuration +
    a.moveVelocity * (t - a.accelDuration)

/-- The displacement computed by `Axis.readPosition` while in the deceleration
phase (`decelStartTime <= movingTimeSeconds < moveDuration`). -/
noncomputable def dispDecel (a : Axis) (t : ℝ) : ℝ :=
  a.baseVelocity * t + 0.5 * a.moveVelocity * a.accelDuration +
    a.moveVelocity * a.constVelDuration +
    (a.moveVelocity - 0.5 * a.deceleration * (t - a.decelStartTime)) * (t - a.decelStartTime)

/-- `Axis.readPosition()`, with `datetime.now()` passed in as `now`; returns
the integer readback together with the post-state.  While moving it samples the
piecewise displacement; on the first sample at or past `moveDuration` it
finalises: position snaps to `targetPosition` (no abort) or to
`lastPosition + direction * moveDistance` (aborted), `lastPosition` is
committed and the profile is cleared. -/
noncomputable def readPosition (a : Axis) (now : ℝ) : ℤ × Axis :=
  match a.moveStartTime with
  | none => (pyRound a.currentPosition, a)
  | some t0 =>
    let t := now - t0
    if t < a.accelDuration then
      let d := dispAccel a t
      let a2 := { a with currentDisplacement := d,
                         currentPosition := a.lastPosition + (a.direction : ℝ) * d }
      (pyRound a2.currentPosition, a2)
    else if t < a.decelStartTime then
      let d := dispCruise a t
      let a2 := { a with currentDisplacement := d,
                         currentPosition := a.lastPosition + (a.direction : ℝ) * d }
      (pyRound a2.currentPosition, a2)
    else if t < a.moveDuration then
      let d := dispDecel a t
      let a2 := { a with currentDisplacement := d,
                         currentPosition := a.lastPosition + (a.direction : ℝ) * d }
      (pyRound a2.currentPosition, a2)
    else
      let d := a.baseVelocity * t + 0.5 * a.moveVelocity * a.accelDuration +
        a.moveVelocity * a.constVelDuration
      match a.abortTime with
      | none =>
        let a2 := { a with currentDisplacement := d,
                           currentPosition := (a.targetPosition : ℝ),
                           lastPosition := (a.targetPosition : ℝ),
                           moveStartTime := none }
        (pyRound a2.currentPosition, a2)
      | some _ =>
        let p := a.lastPosition + (a.direction : ℝ) * a.moveDistance
        let a2 := { a with currentDisplacement := d,
                           currentPosition := p,
                           lastPosition := p,
                           abortTime := none,
                           moveStartTime := none }
        (pyRound a2.currentPosition, a2)

/-- `Axis.readStatus()`, with `datetime.now()` passed in as `now`; returns the
reporter's `doneMoving` flag together with the post-state. -/
noncomputable def readStatus (a : Axis) (now : ℝ) : Bool × Axis :=
  match a.moveStartTime with
  | none =>
    let a2 := { a with status := a.status.setDoneMoving }
    (a2.status.doneMoving, a2)
  | some t0 =>
    if now - t0 < a.moveDuration then
      let a2 := { a with status := a.status.setMoving }
      (a2.status.doneMoving, a2)
    else
      let a2 := { a with status := a.status.setDoneMoving }
      (a2.status.doneMoving, a2)

/-- `Axis.setVelocity(velocity)`. -/
def setVelocity (a : Axis) (v : ℝ) : Axis :=
  { a with velocity := v }

/-- `Axis.setAcceleration(acceleration)`: also sets the deceleration. -/
def setAcceleration (a : Axis) (acc : ℝ) : Axis :=
  { a with acceleration := acc, deceleration := acc }

/-- `Axis.setHighLimit(highLimit)`. -/
noncomputable def setHighLimit (a : Axis) (h : ℝ) : Axis :=
  { a with highLimit := pyRound h }

/-- `Axis.setLowLimit(lowLimit)`. -/
noncomputable def setLowLimit (a : Axis) (l : ℝ) : Axis :=
  { a with lowLimit := pyRound l }

/-! ### Derived forms of the planner, for proofs -/

/-- A `move` call that is not rejected by the soft-limit checks. -/
def MoveOk (a : Axis) (target : ℝ) : Prop :=
  ¬(a.enforceLimits = true ∧ target > (a.highLimit : ℝ)) ∧
  ¬(a.enforceLimits = true ∧ target < (a.lowLimit : ℝ))

/-- Full-speed acceleration-phase duration, as computed by the planner. -/
noncomputable def fsAccelDuration (a : Axis) : ℝ :=
  (a.velocity - a.baseVelocity) / a.acceleration

/-- Full-speed acceleration-phase distance, as computed by the planner. -/
noncomputable def fsAccelDistance (a : Axis) : ℝ :=
  0.5 * (a.velocity - a.baseVelocity) * fsAccelDuration a + a.baseVelocity * fsAccelDuration a

/-- Full-speed deceleration-phase duration, as computed by the planner. -/
noncomputable def fsDecelDuration (a : Axis) : ℝ :=
  (a.velocity - a.baseVelocity) / a.deceleration

/-- Full-speed deceleration-phase distance, as computed by the planner. -/
noncomputable def fsDecelDistance (a : Axis) : ℝ :=
  0.5 * (a.velocity - a.baseVelocity) * fsDecelDuration a + a.baseVelocity * fsDecelDuration a

/-- The move distance the planner computes for a commanded target. -/
noncomputable def plannedDistance (a : Axis) (target : ℝ) : ℝ :=
  |((pyRound target : ℤ) : ℝ) - a.currentPosition|

/-- The planner's triangular-branch condition: desired speed is never reached. -/
noncomputable def TriCond (a : Axis) (target : ℝ) : Prop :=
  plannedDistance a target < fsAccelDistance a + fsDecelDistance a

/-- The `peakVelocity` of the triangular branch. -/
noncomputable def peakVel (a : Axis) (target : ℝ) : ℝ :=
  Real.sqrt (2 * a.acceleration * a.deceleration * plannedDistance a target /
    (a.acceleration + a.deceleration))

/-- The direction the planner computes for a commanded target. -/
noncomputable def planDir (a : Axis) (target : ℝ) : ℤ :=
  if ((pyRound target : ℤ) : ℝ) < a.currentPosition then -1 else 1

/-- The axis state produced by the planner's triangular branch. -/
noncomputable def triPlan (a : Axis) (now target : ℝ) : Axis :=
  { a with
      lastPosition := a.currentPosition
      moveStartTime := some now
      targetPosition := pyRound target
      direction := planDir a target
      moveDistance := plannedDistance a target
      moveVelocity := peakVel a target
      accelDuration := peakVel a target / a.acceleration
      accelDistance := 0.5 * peakVel a target * (peakVel a target / a.acceleration)
      decelDuration := (peakVel a target - a.baseVelocity) / a.deceleration
      decelDistance := 0.5 * (peakVel a target - a.baseVelocity) *
          ((peakVel a target - a.baseVelocity) / a.deceleration) +
        a.baseVelocity * ((peakVel a target - a.baseVelocity) / a.deceleration)
      constVelDuration := 0
      decelStartTime := peakVel a target / a.acceleration + 0
      moveDuration := peakVel a target / a.acceleration + 0 +
        (peakVel a target - a.baseVelocity) / a.deceleration }

/-- The axis state produced by the planner's trapezoidal branch. -/
noncomputable def trapPlan (a : Axis) (now target : ℝ) : Axis :=
  { a with
      lastPosition := a.currentPosition
      moveStartTime := some now
      targetPosition := pyRound target
      direction := planDir a target
      moveDistance := plannedDistance a target
      moveVelocity := a.velocity
      accelDuration := fsAccelDuration a
      accelDistance := fsAccelDistance a
      decelDuration := fsDecelDuration a
      decelDistance := fsDecelDistance a
      constVelDuration := (plannedDistance a target - fsAccelDistance a - fsDecelDistance a) /
        a.velocity
      decelStartTime := fsAccelDuration a +
        (plannedDistance a target - fsAccelDistance a - fsDecelDistance a) / a.velocity
      moveDuration := fsAccelDuration a +
        (plannedDistance a target - fsAccelDistance a - fsDecelDistance a) / a.velocity +
        fsDecelDuration a }

theorem move_tri_eq (a : Axis) (now target : ℝ) (hok : MoveOk a target)
    (htri : TriCond a target) : move a now target = triPlan a now target := by
  rw [move, if_neg, if_neg, if_pos]
  · rfl
  · simpa [TriCond, plannedDistance, fsAccelDistance, fsAccelDuration,
      fsDecelDistance, fsDecelDuration] using htri
  · simpa using hok.2
  · simpa using hok.1

theorem move_trap_eq (a : Axis) (now target : ℝ) (hok : MoveOk a target)
    (htri : ¬ TriCond a target) : move a now target = trapPlan a now target := by
  rw [move, if_neg, if_neg, if_neg]
  · rfl
  · simpa [TriCond, plannedDistance, fsAccelDistance, fsAccelDuration,
      fsDecelDistance, fsDecelDuration] using htri
  · simpa using hok.2
  · simpa using hok.1

/-- Python 2 `round` is the identity on integer values. -/
theorem pyRound_intCast (n : ℤ) : pyRound ((n : ℤ) : ℝ) = n := by
  unfold pyRound
  split_ifs with h
  · rw [Int.floor_int_add]
    norm_num
  · have : -((n : ℤ) : ℝ) = ((-n : ℤ) : ℝ) := by push_cast; ring
    rw [this, Int.floor_int_add]
    norm_num

/-- The rest-state invariant: an axis with no active profile reads back its
committed position (`currentPosition` agrees with `lastPosition`). -/
def Inv (a : Axis) : Prop := a.moveStartTime = none → a.currentPosition = a.lastPosition

/-! ### Claims -/

/-- C8: `stop` is idempotent for an active move: a second `stop`, issued after
an abort has already been recorded, changes nothing, so two `stop` calls leave
the same truncated profile as one. -/
theorem stop_idempotent (a : Axis) (t0 now1 now2 : ℝ) (h : a.moveStartTime = some t0) :
    stop (stop a now1) now2 = stop a now1 := by
  rcases hab : a.abortTime with _ | x
  · simp only [stop, h, hab]
    split_ifs <;> simp [stop, h]
  · simp [stop, h, hab]

/-- C8 witness: two stops on a concrete moving axis equal one stop. -/
theorem stop_idempotent_witness :
    stop (stop { initAxis with moveStartTime := some 0 } 1) 2 =
      stop { initAxis with moveStartTime := some 0 } 1 :=
  stop_idempotent { initAxis with moveStartTime := some 0 } 0 1 2 rfl

/-- C9: `readStatus` reports moving exactly when a profile is active and the
elapsed time is below `moveDuration`, and it changes nothing in the axis state
except the status reporter. -/
theorem readStatus_spec (a : Axis) (now : ℝ) :
    ((readStatus a now).1 = false ↔
      ∃ t0, a.moveStartTime = some t0 ∧ now - t0 < a.moveDuration) ∧
    (readStatus a now).2 = { a with status := (readStatus a now).2.status } := by
  rcases hms : a.moveStartTime with _ | t0
  · simp [readStatus, hms, Status.setDoneMoving]
  · by_cases hlt : now - t0 < a.moveDuration
    · simp [readStatus, hms, hlt, Status.setMoving]
    · simp [readStatus, hms, hlt, Status.setDoneMoving]

/-- C10: the rest-state invariant `currentPosition = lastPosition` (whenever no
profile is active) is preserved by every operation, and `readPosition` at rest
returns the rounded committed position without mutating anything. -/
theorem rest_invariant_preserved (a : Axis) (now target v acc hl ll : ℝ) (hInv : Inv a) :
    Inv (move a now target) ∧ Inv (stop a now) ∧ Inv (readPosition a now).2 ∧
    Inv (readStatus a now).2 ∧ Inv (setVelocity a v) ∧ Inv (setAcceleration a acc) ∧
    Inv (setHighLimit a hl) ∧ Inv (setLowLimit a ll) ∧
    (a.moveStartTime = none → readPosition a now = (pyRound a.lastPosition, a)) := by
  refine ⟨?_, ?_, ?_, ?_, ?_, ?_, ?_, ?_, ?_⟩
  · by_cases h1 : a.enforceLimits = true ∧ target > (a.highLimit : ℝ)
    · simp [Inv, move, h1.1, h1.2]
    · by_cases h2 : a.enforceLimits = true ∧ target < (a.lowLimit : ℝ)
      · have hh : ¬ ((a.highLimit : ℝ) < target) := fun hc => h1 ⟨h2.1, hc⟩
        simp [Inv, move, h2.1, h2.2, hh]
      · rcases em (TriCond a target) with htri | htri
        · rw [move_tri_eq a now target ⟨h1, h2⟩ htri]
          simp [Inv, triPlan]
        · rw [move_trap_eq a now target ⟨h1, h2⟩ htri]
          simp [Inv, trapPlan]
  · rcases hms : a.moveStartTime with _ | t0
    · intro _
      simpa [stop, hms] using hInv hms
    · simp only [stop, hms]
      rcases hab : a.abortTime with _ | x
      · split_ifs <;> simp [Inv, hms]
      · simp [Inv, hms]
  · rcases hms : a.moveStartTime with _ | t0
    · simpa [readPosition, hms, Inv, hms] using hInv
    · simp only [readPosition, hms]
      split_ifs
      · simp [Inv, hms]
      · simp [Inv, hms]
      · simp [Inv, hms]
      · rcases hab : a.abortTime with _ | x <;> simp [Inv, hab]
  · rcases hms : a.moveStartTime with _ | t0
    · simpa [readStatus, hms, Inv] using hInv
    · by_cases hlt : now - t0 < a.moveDuration <;>
        simp [readStatus, hms, hlt, Inv]
  · simpa [setVelocity, Inv] using hInv
  · simpa [setAcceleration, Inv] using hInv
  · simpa [setHighLimit, Inv] using hInv
  · simpa [setLowLimit, Inv] using hInv
  · intro hms
    have := hInv hms
    simp [readPosition, hms, this]

/-- C10 witness: the invariant holds of the initial axis and a rest read is a
pure readback of the committed position. -/
theorem rest_invariant_witness :
    Inv ((readPosition initAxis 0).2) ∧ readPosition initAxis 0 = (pyRound 0, initAxis) :=
  ⟨(rest_invariant_preserved initAxis 0 0 0 0 0 0 (fun _ => rfl)).2.2.1,
   (rest_invariant_preserved initAxis 0 0 0 0 0 0 (fun _ => rfl)).2.2.2.2.2.2.2.2 rfl⟩

/-- C3 counterexample: a limit-rejected `move` does not leave `lastPosition`
unchanged — the method unconditionally overwrites `lastPosition` with
`currentPosition` before the limit check, so with a move in flight
(`currentPosition = 50`, `lastPosition = 0`) the rejected command mutates
`lastPosition`. -/
def cexC3 : Axis :=
  { initAxis with enforceLimits := true, currentPosition := 50, moveStartTime := some 0 }

theorem move_limit_reject_cex : (move cexC3 1 50000).lastPosition ≠ cexC3.lastPosition := by
  rw [move]
  norm_num [cexC3, initAxis]

/-- C3 (amended): a limit-rejected `move` raises the corresponding limit error
on the status reporter and leaves `moveStartTime` and every profile field
unchanged (no move starts), but it does set `lastPosition := currentPosition`
(the method's first statement runs before the limit check); at rest, where
`currentPosition = lastPosition`, `lastPosition` is therefore unchanged. -/
theorem move_limit_reject (a : Axis) (now target : ℝ) (he : a.enforceLimits = true) :
    (target > (a.highLimit : ℝ) →
      move a now target = { a with
        lastPosition := a.currentPosition
        status := a.status.setError true "Target position exceeds high limit" }) ∧
    (¬ target > (a.highLimit : ℝ) → target < (a.lowLimit : ℝ) →
      move a now target = { a with
        lastPosition := a.currentPosition
        status := a.status.setError true "Target position exceeds low limit" }) := by
  constructor
  · intro hhi
    rw [move, if_pos]
    simpa using ⟨he, hhi⟩
  · intro hhi hlo
    rw [move, if_neg, if_pos]
    · simpa using ⟨he, hlo⟩
    · simpa using fun _ => hhi

/-- A concrete axis with limit enforcement switched on. -/
def axEnf : Axis := { initAxis with enforceLimits := true }

/-- C3 witness: a concrete high-limit rejection at rest. -/
theorem move_limit_reject_witness :
    move axEnf 0 50000 = { axEnf with
      lastPosition := axEnf.currentPosition
      status := axEnf.status.setError true "Target position exceeds high limit" } :=
  (move_limit_reject axEnf 0 50000 rfl).1 (by norm_num [axEnf, initAxis])

/-- C4 counterexample: a successful `move` does not clear a pending abort
timestamp — `move` never assigns `abortTime`, so a stale abort from a previous
move survives into the new one. -/
def cexC4 : Axis := { initAxis with abortTime := some 5 }

theorem move_abort_cex : (move cexC4 0 1000).abortTime ≠ none := by
  have h1000 : pyRound (1000 : ℝ) = 1000 := by
    have := pyRound_intCast 1000
    norm_num at this
    exact this
  have htri : ¬ TriCond cexC4 1000 := by
    simp only [TriCond, plannedDistance, fsAccelDistance, fsDecelDistance,
      fsAccelDuration, fsDecelDuration, cexC4, initAxis, h1000]
    norm_num
  rw [move_trap_eq cexC4 0 1000 ⟨by simp [cexC4, initAxis], by simp [cexC4, initAxis]⟩ htri]
  simp [trapPlan, cexC4]

/-- C4 (amended): every successful `move` records `moveStartTime = now`, but it
does not touch the abort timestamp: `abortTime` keeps whatever value it had
before the call (it is cleared only by `stop` at rest or by the finalising
`readPosition` of an aborted move). -/
theorem move_start_time_set (a : Axis) (now target : ℝ) (hok : MoveOk a target) :
    (move a now target).moveStartTime = some now ∧
    (move a now target).abortTime = a.abortTime := by
  rcases em (TriCond a target) with htri | htri
  · rw [move_tri_eq a now target hok htri]
    simp [triPlan]
  · rw [move_trap_eq a now target hok htri]
    simp [trapPlan]

/-- C4 witness: a concrete accepted move records its start time. -/
theorem move_start_time_witness : (move initAxis 3 1000).moveStartTime = some 3 ∧
    (move initAxis 3 1000).abortTime = none :=
  move_start_time_set initAxis 3 1000 ⟨by simp [initAxis], by simp [initAxis]⟩

/-- C2 counterexample: `stop` issued after the move's duration has elapsed is
not free of state mutation — it records `abortTime = now` before dispatching on
the phase, so the abort-requested timestamp changes from `none` to `some now`. -/
def cexC2 : Axis := { initAxis with
  moveStartTime := some 0
  moveDuration := 1 }

theorem stop_stale_cex : (stop cexC2 2).abortTime ≠ cexC2.abortTime := by
  norm_num [stop, cexC2, initAxis]
  exact fun h => Option.noConfusion h

/-- C2 (amended): `stop` issued on an active move whose `moveDuration` has
already elapsed changes exactly one field: it sets `abortTime := now` (every
other field is untouched).  A subsequent `readPosition` at completion then
takes the aborted-finalisation path, which still returns exactly
`targetPosition` because `lastPosition + direction * moveDistance =
targetPosition` for a profile that was never re-planned. -/
theorem stop_stale (a : Axis) (t0 now : ℝ) (hms : a.moveStartTime = some t0)
    (hab : a.abortTime = none) (h1 : a.accelDuration ≤ a.decelStartTime)
    (h2 : a.decelStartTime ≤ a.moveDuration) (hdone : a.moveDuration ≤ now - t0) :
    stop a now = { a with abortTime := some now } ∧
    ∀ now2, a.moveDuration ≤ now2 - t0 →
      (a.direction : ℝ) * a.moveDistance = (a.targetPosition : ℝ) - a.lastPosition →
      (readPosition (stop a now) now2).1 = a.targetPosition := by
  have hacc : ¬ (now - t0 < a.accelDuration) := by push_neg; linarith
  have hdec : ¬ (now - t0 < a.decelStartTime) := by push_neg; linarith
  have hstop : stop a now = { a with abortTime := some now } := by
    simp only [stop, hms, hab]
    rw [if_neg hacc, if_neg hdec]
  refine ⟨hstop, ?_⟩
  intro now2 hn2 hdir
  have hacc2 : ¬ (now2 - t0 < a.accelDuration) := by push_neg; linarith
  have hdec2 : ¬ (now2 - t0 < a.decelStartTime) := by push_neg; linarith
  have hdur2 : ¬ (now2 - t0 < a.moveDuration) := by push_neg; linarith
  have htp : a.lastPosition + (a.direction : ℝ) * a.moveDistance = (a.targetPosition : ℝ) := by
    rw [hdir]; ring
  rw [hstop]
  simp only [readPosition, hms]
  rw [if_neg hacc2, if_neg hdec2, if_neg hdur2]
  simp [htp, pyRound_intCast]

/-- C2 witness: on a concrete completed move, the stale stop sets the abort
timestamp and a later completion read still returns the target. -/
theorem stop_stale_witness :
    stop cexC2 2 = { cexC2 with abortTime := some 2 } ∧
    (readPosition (stop cexC2 2) 3).1 = cexC2.targetPosition :=
  ⟨(stop_stale cexC2 0 2 rfl rfl (by norm_num [cexC2, initAxis])
      (by norm_num [cexC2, initAxis]) (by norm_num [cexC2, initAxis])).1,
   (stop_stale cexC2 0 2 rfl rfl (by norm_num [cexC2, initAxis])
      (by norm_num [cexC2, initAxis]) (by norm_num [cexC2, initAxis])).2 3
      (by norm_num [cexC2, initAxis]) (by norm_num [cexC2, initAxis])⟩

/-- C7: the first `readPosition` sampled at or after `moveDuration` on an
unaborted move returns exactly the (already integral) target, commits it as
`lastPosition`, and clears the active profile; any later read at rest returns
the same value and mutates nothing, so finalisation happens exactly once. -/
theorem readPosition_finalize (a : Axis) (t0 now : ℝ) (hms : a.moveStartTime = some t0)
    (hab : a.abortTime = none) (h1 : a.accelDuration ≤ a.decelStartTime)
    (h2 : a.decelStartTime ≤ a.moveDuration) (hdone : a.moveDuration ≤ now - t0) :
    (readPosition a now).1 = a.targetPosition ∧
    (readPosition a now).2.currentPosition = (a.targetPosition : ℝ) ∧
    (readPosition a now).2.lastPosition = (a.targetPosition : ℝ) ∧
    (readPosition a now).2.moveStartTime = none ∧
    (readPosition a now).2.abortTime = none ∧
    ∀ now2, readPosition (readPosition a now).2 now2 =
      (a.targetPosition, (readPosition a now).2) := by
  have hacc : ¬ (now - t0 < a.accelDuration) := by push_neg; linarith
  have hdec : ¬ (now - t0 < a.decelStartTime) := by push_neg; linarith
  have hdur : ¬ (now - t0 < a.moveDuration) := by push_neg; linarith
  have hread : readPosition a now = (a.targetPosition, { a with
      currentDisplacement := a.baseVelocity * (now - t0) +
        0.5 * a.moveVelocity * a.accelDuration + a.moveVelocity * a.constVelDuration
      currentPosition := (a.targetPosition : ℝ)
      lastPosition := (a.targetPosition : ℝ)
      moveStartTime := none }) := by
    simp only [readPosition, hms]
    rw [if_neg hacc, if_neg hdec, if_neg hdur]
    simp [hab, pyRound_intCast]
  rw [hread]
  refine ⟨rfl, rfl, rfl, rfl, hab, ?_⟩
  intro now2
  simp [readPosition, pyRound_intCast]

/-- A concrete completed move for the finalisation witness. -/
def cexC7 : Axis := { initAxis with
  moveStartTime := some 0
  targetPosition := 7
  moveDuration := 1 }

/-- Helper: `pyRound` of a real number that is (provably) an integer. -/
theorem pyRound_eq_intCast (n : ℤ) (x : ℝ) (hx : x = ((n : ℤ) : ℝ)) : pyRound x = n := by
  rw [hx]; exact pyRound_intCast n

/-- The distance-sum profile invariant of the spec (§3). -/
def profileInv (a : Axis) : Prop :=
  a.accelDistance + a.moveVelocity * a.constVelDuration + a.decelDistance = a.moveDistance

/-- A concrete axis with the default kinematics but a nonzero base velocity. -/
def axBase : Axis := { initAxis with baseVelocity := 100 }

/-- Helper: the peak velocity of the short move `0 → 100` on `axBase` is
exactly `√40000 = 200`. -/
theorem peakVel_axBase : peakVel axBase 100 = 200 := by
  have h100 : pyRound (100 : ℝ) = 100 := pyRound_eq_intCast 100 _ (by norm_num)
  rw [peakVel]
  simp only [plannedDistance, axBase, initAxis, h100]
  norm_num
  rw [show (40000 : ℝ) = 200 ^ 2 by norm_num, Real.sqrt_sq (by norm_num)]

/-- Helper: the short move `0 → 100` on `axBase` takes the triangular branch. -/
theorem triCond_axBase : TriCond axBase 100 := by
  have h100 : pyRound (100 : ℝ) = 100 := pyRound_eq_intCast 100 _ (by norm_num)
  simp only [TriCond, plannedDistance, fsAccelDistance, fsDecelDistance,
    fsAccelDuration, fsDecelDuration, axBase, initAxis, h100]
  norm_num

/-- Helper: no move on `axBase` is limit-rejected (enforcement is off). -/
theorem moveOk_axBase (target : ℝ) : MoveOk axBase target :=
  ⟨by simp [axBase, initAxis], by simp [axBase, initAxis]⟩

/-- C5 counterexample: immediately after the triangular planning of the move
`0 → 100` with base velocity 100, the invariant fails — the sum is
`50 + 0 + 37.5 = 87.5` while `moveDistance = 100` (the triangular accel-phase
recompute drops the base-velocity term, leaving a deficit of `Vb² / (2·D)`). -/
noncomputable def cexC5 : Axis := move axBase 0 100

theorem profile_sum_invariant_cex : ¬ profileInv cexC5 := by
  have h100 : pyRound (100 : ℝ) = 100 := pyRound_eq_intCast 100 _ (by norm_num)
  rw [cexC5, move_tri_eq axBase 0 100 (moveOk_axBase 100) triCond_axBase]
  simp only [profileInv, triPlan]
  rw [peakVel_axBase]
  simp only [plannedDistance, axBase, initAxis, h100]
  norm_num

/-- C5 (amended): the invariant `accelDistance + moveVelocity·constVelDuration
+ decelDistance = moveDistance` holds immediately after trapezoidal planning
(for every base velocity), after both re-planning branches of `stop` (during
acceleration and during cruise, for every base velocity), and after triangular
planning when the base velocity is zero; triangular planning with a nonzero
base velocity violates it (see the counterexample). -/
theorem profile_sum_invariant :
    (∀ a : Axis, ∀ now target : ℝ, MoveOk a target → a.velocity ≠ 0 → ¬ TriCond a target →
      profileInv (move a now target)) ∧
    (∀ a : Axis, ∀ now target : ℝ, MoveOk a target → 0 < a.acceleration →
      0 < a.deceleration → a.velocity ≠ 0 → a.baseVelocity = 0 →
      profileInv (move a now target)) ∧
    (∀ a : Axis, ∀ t0 now : ℝ, a.moveStartTime = some t0 → a.abortTime = none →
      now - t0 < a.accelDuration → profileInv (stop a now)) ∧
    (∀ a : Axis, ∀ t0 now : ℝ, a.moveStartTime = some t0 → a.abortTime = none →
      ¬ (now - t0 < a.accelDuration) → now - t0 < a.decelStartTime →
      profileInv (stop a now)) := by
  have trap : ∀ a : Axis, ∀ now target : ℝ, MoveOk a target → a.velocity ≠ 0 →
      ¬ TriCond a target → profileInv (move a now target) := by
    intro a now target hok hV htri
    rw [move_trap_eq a now target hok htri]
    simp only [profileInv, trapPlan]
    field_simp
    ring
  refine ⟨trap, ?_, ?_, ?_⟩
  · intro a now target hok hA hD hV hb0
    rcases em (TriCond a target) with htri | htri
    · rw [move_tri_eq a now target hok htri]
      have hrad : (0 : ℝ) ≤ 2 * a.acceleration * a.deceleration * plannedDistance a target /
          (a.acceleration + a.deceleration) := by
        apply div_nonneg _ (by linarith)
        have habs : (0 : ℝ) ≤ plannedDistance a target := abs_nonneg _
        exact mul_nonneg (mul_nonneg (mul_nonneg (by norm_num) hA.le) hD.le) habs
      have hs : peakVel a target ^ 2 =
          2 * a.acceleration * a.deceleration * plannedDistance a target /
            (a.acceleration + a.deceleration) := by
        rw [peakVel, Real.sq_sqrt hrad]
      have hs2 : peakVel a target ^ 2 * (a.acceleration + a.deceleration) =
          2 * a.acceleration * a.deceleration * plannedDistance a target := by
        rw [hs]
        field_simp
      simp only [profileInv, triPlan, hb0]
      field_simp
      linear_combination 0.5 * hs2
    · exact trap a now target hok hV htri
  · intro a t0 now hms hab hlt
    simp only [stop, hms, hab]
    rw [if_pos hlt]
    simp only [profileInv]
    ring
  · intro a t0 now hms hab hge hlt
    simp only [stop, hms, hab]
    rw [if_neg hge, if_pos hlt]
    simp only [profileInv]

/-- C5 witness: the invariant holds after concrete trapezoidal planning,
concrete triangular planning at zero base velocity, and a concrete cruise-phase
re-plan. -/
theorem profile_sum_invariant_witness :
    profileInv (move initAxis 0 1000) ∧ profileInv (move initAxis 0 100) ∧
    profileInv (stop (move initAxis 0 1000) 2) := by
  refine ⟨profile_sum_invariant.2.1 initAxis 0 1000 ⟨by simp [initAxis], by simp [initAxis]⟩
      (by norm_num [initAxis]) (by norm_num [initAxis]) (by norm_num [initAxis]) rfl,
    profile_sum_invariant.2.1 initAxis 0 100 ⟨by simp [initAxis], by simp [initAxis]⟩
      (by norm_num [initAxis]) (by norm_num [initAxis]) (by norm_num [initAxis]) rfl, ?_⟩
  have h1000 : pyRound (1000 : ℝ) = 1000 := pyRound_eq_intCast 1000 _ (by norm_num)
  have htrap : ¬ TriCond initAxis 1000 := by
    simp only [TriCond, plannedDistance, fsAccelDistance, fsDecelDistance,
      fsAccelDuration, fsDecelDuration, initAxis, h1000]
    norm_num
  have hmove : move initAxis 0 1000 = trapPlan initAxis 0 1000 :=
    move_trap_eq initAxis 0 1000 ⟨by simp [initAxis], by simp [initAxis]⟩ htrap
  apply profile_sum_invariant.2.2.2 (move initAxis 0 1000) 0 2
  · rw [hmove]; rfl
  · rw [hmove]; rfl
  · rw [hmove]
    simp only [trapPlan, fsAccelDuration, fsAccelDistance, fsDecelDistance,
      fsDecelDuration, plannedDistance, initAxis, h1000]
    norm_num
  · rw [hmove]
    simp only [trapPlan, fsAccelDuration, fsAccelDistance, fsDecelDistance,
      fsDecelDuration, plannedDistance, initAxis, h1000]
    norm_num

/-- Modelled from the spec's words, for the refinement comparison of C6: the
acceleration-phase duration recomputed "using peakVelocity in place of V" in
the planner's full-speed formula `(V - Vb) / A`. -/
noncomputable def specTriAccelDuration (pV vb acc : ℝ) : ℝ := (pV - vb) / acc

/-- C6 counterexample: in the triangular branch the code does not recompute the
acceleration phase "using peakVelocity in place of V": for the move `0 → 100`
at base velocity 100 it sets `accelDuration = peakVelocity / A = 0.5`, while
the full-speed formula with `peakVelocity` in place of `V` gives
`(peakVelocity - Vb) / A = 0.25`. -/
noncomputable def cexC6 : Axis := move axBase 0 100

theorem triangular_selection_cex :
    cexC6.accelDuration ≠
      specTriAccelDuration cexC6.moveVelocity cexC6.baseVelocity cexC6.acceleration := by
  rw [cexC6, move_tri_eq axBase 0 100 (moveOk_axBase 100) triCond_axBase]
  simp only [triPlan, specTriAccelDuration]
  rw [peakVel_axBase]
  simp only [axBase, initAxis]
  norm_num

/-- C6 (amended): the planner selects the triangular profile iff `moveDistance
< accelDistance + decelDistance` computed from the full-speed parameters; in
that case `moveVelocity = peakVelocity = sqrt(2·A·D·moveDistance/(A+D))`,
`constVelDuration = 0`, the deceleration phase is recomputed with
`peakVelocity` in place of `V`, and `peakVelocity ≤ V`; the acceleration
phase, however, is recomputed as `accelDuration = peakVelocity / A` and
`accelDistance = 0.5·peakVelocity·accelDuration`, i.e. with the base-velocity
terms dropped (this matches "peakVelocity in place of V" only when `Vb = 0`). -/
theorem triangular_selection (a : Axis) (now target : ℝ) (hok : MoveOk a target)
    (hA : 0 < a.acceleration) (hD : 0 < a.deceleration)
    (hb0 : 0 ≤ a.baseVelocity) (hbV : a.baseVelocity ≤ a.velocity) :
    (TriCond a target →
      (move a now target).moveVelocity = peakVel a target ∧
      (move a now target).constVelDuration = 0 ∧
      (move a now target).accelDuration = peakVel a target / a.acceleration ∧
      (move a now target).accelDistance =
        0.5 * peakVel a target * (peakVel a target / a.acceleration) ∧
      (move a now target).decelDuration =
        specTriAccelDuration (peakVel a target) a.baseVelocity a.deceleration ∧
      (move a now target).decelDistance =
        0.5 * (peakVel a target - a.baseVelocity) *
            ((peakVel a target - a.baseVelocity) / a.deceleration) +
          a.baseVelocity * ((peakVel a target - a.baseVelocity) / a.deceleration) ∧
      peakVel a target ≤ a.velocity) ∧
    (¬ TriCond a target →
      (move a now target).moveVelocity = a.velocity ∧
      (move a now target).constVelDuration =
        (plannedDistance a target - fsAccelDistance a - fsDecelDistance a) / a.velocity) := by
  constructor
  · intro htri
    have hVpos : (0 : ℝ) ≤ a.velocity := le_trans hb0 hbV
    have hle : peakVel a target ≤ a.velocity := by
      have h2AD : (0 : ℝ) < 2 * a.acceleration * a.deceleration := by positivity
      have h := htri
      simp only [TriCond, fsAccelDistance, fsDecelDistance,
        fsAccelDuration, fsDecelDuration] at h
      have h3 : 2 * a.acceleration * a.deceleration * plannedDistance a target <
          2 * a.acceleration * a.deceleration *
            (0.5 * (a.velocity - a.baseVelocity) *
                ((a.velocity - a.baseVelocity) / a.acceleration) +
              a.baseVelocity * ((a.velocity - a.baseVelocity) / a.acceleration) +
              (0.5 * (a.velocity - a.baseVelocity) *
                  ((a.velocity - a.baseVelocity) / a.deceleration) +
                a.baseVelocity * ((a.velocity - a.baseVelocity) / a.deceleration))) :=
        (mul_lt_mul_left h2AD).mpr h
      have h4 : 2 * a.acceleration * a.deceleration *
          (0.5 * (a.velocity - a.baseVelocity) *
              ((a.velocity - a.baseVelocity) / a.acceleration) +
            a.baseVelocity * ((a.velocity - a.baseVelocity) / a.acceleration) +
            (0.5 * (a.velocity - a.baseVelocity) *
                ((a.velocity - a.baseVelocity) / a.deceleration) +
              a.baseVelocity * ((a.velocity - a.baseVelocity) / a.deceleration))) =
          (a.velocity ^ 2 - a.baseVelocity ^ 2) * (a.acceleration + a.deceleration) := by
        field_simp
        ring
      have hrad : 2 * a.acceleration * a.deceleration * plannedDistance a target /
          (a.acceleration + a.deceleration) ≤ a.velocity ^ 2 := by
        rw [div_le_iff₀ (by linarith)]
        nlinarith [mul_nonneg (mul_self_nonneg a.baseVelocity) (by linarith :
          (0 : ℝ) ≤ a.acceleration + a.deceleration)]
      calc peakVel a target ≤ Real.sqrt (a.velocity ^ 2) := Real.sqrt_le_sqrt hrad
        _ = a.velocity := Real.sqrt_sq hVpos
    rw [move_tri_eq a now target hok htri]
    exact ⟨rfl, rfl, rfl, rfl, rfl, rfl, hle⟩
  · intro htri
    rw [move_trap_eq a now target hok htri]
    exact ⟨rfl, rfl⟩

/-- C6 witness: the short move `0 → 100` on the default axis is planned as a
triangular profile with no cruise segment and a peak velocity below `V`. -/
theorem triangular_selection_witness :
    (move initAxis 0 100).constVelDuration = 0 ∧
    (move initAxis 0 100).moveVelocity ≤ 400 := by
  have h100 : pyRound (100 : ℝ) = 100 := pyRound_eq_intCast 100 _ (by norm_num)
  have htri : TriCond initAxis 100 := by
    simp only [TriCond, plannedDistance, fsAccelDistance, fsDecelDistance,
      fsAccelDuration, fsDecelDuration, initAxis, h100]
    norm_num
  have h := (triangular_selection initAxis 0 100 ⟨by simp [initAxis], by simp [initAxis]⟩
    (by norm_num [initAxis]) (by norm_num [initAxis]) (by norm_num [initAxis])
    (by norm_num [initAxis])).1 htri
  exact ⟨h.2.1, h.1 ▸ h.2.2.2.2.2.2⟩

/-- C7 witness: a concrete completion read returns the target and clears the
profile, and an immediate second read repeats the value without mutation. -/
theorem readPosition_finalize_witness :
    (readPosition cexC7 2).1 = 7 ∧ (readPosition cexC7 2).2.moveStartTime = none ∧
    readPosition (readPosition cexC7 2).2 5 = (7, (readPosition cexC7 2).2) :=
  ⟨(readPosition_finalize cexC7 0 2 rfl rfl (by norm_num [cexC7, initAxis])
      (by norm_num [cexC7, initAxis]) (by norm_num [cexC7, initAxis])).1,
   (readPosition_finalize cexC7 0 2 rfl rfl (by norm_num [cexC7, initAxis])
      (by norm_num [cexC7, initAxis]) (by norm_num [cexC7, initAxis])).2.2.2.1,
   (readPosition_finalize cexC7 0 2 rfl rfl (by norm_num [cexC7, initAxis])
      (by norm_num [cexC7, initAxis]) (by norm_num [cexC7, initAxis])).2.2.2.2.2 5⟩

/-- C1 counterexample: with a nonzero base velocity the displacement computed
by `readPosition` is not continuous at `t = accelDuration`.  For the planned
trapezoidal move `0 → 1000` with `V = 400`, `Vb = 100`, `A = D = 400`, at
`t = accelDuration = 0.75` the accelerating branch gives `187.5` while the
post-acceleration branch gives `225` (the jump is `0.5·Vb·accelDuration`). -/
noncomputable def cexC1 : Axis := move axBase 0 1000

theorem displacement_continuity_cex :
    dispAccel cexC1 cexC1.accelDuration ≠ dispCruise cexC1 cexC1.accelDuration := by
  have h1000 : pyRound (1000 : ℝ) = 1000 := pyRound_eq_intCast 1000 _ (by norm_num)
  have htrap : ¬ TriCond axBase 1000 := by
    simp only [TriCond, plannedDistance, fsAccelDistance, fsDecelDistance,
      fsAccelDuration, fsDecelDuration, axBase, initAxis, h1000]
    norm_num
  rw [cexC1, move_trap_eq axBase 0 1000 (moveOk_axBase 1000) htrap]
  simp only [dispAccel, dispCruise, trapPlan, fsAccelDuration, axBase, initAxis]
  norm_num

/-- C1 (amended): for every planned move (both trapezoidal and triangular) the
displacement function of `readPosition` is continuous at `t = decelStartTime`;
when the base velocity is zero it is also continuous at `t = accelDuration`
and its deceleration branch evaluated at `t = moveDuration` equals
`moveDistance` exactly.  With a nonzero base velocity both of the latter fail
(see the counterexample): the post-acceleration branches rebuild the
acceleration contribution as `0.5·moveVelocity·accelDuration`, dropping the
base-velocity term of the planned `accelDistance`. -/
theorem displacement_continuity (a : Axis) (now target : ℝ) (hok : MoveOk a target)
    (hA : 0 < a.acceleration) (hD : 0 < a.deceleration) (hV : 0 < a.velocity) :
    (dispCruise (move a now target) (move a now target).decelStartTime =
      dispDecel (move a now target) (move a now target).decelStartTime) ∧
    (a.baseVelocity = 0 →
      dispAccel (move a now target) (move a now target).accelDuration =
        dispCruise (move a now target) (move a now target).accelDuration ∧
      dispDecel (move a now target) (move a now target).moveDuration =
        (move a now target).moveDistance) := by
  rcases em (TriCond a target) with htri | htri
  · rw [move_tri_eq a now target hok htri]
    have hrad : (0 : ℝ) ≤ 2 * a.acceleration * a.deceleration * plannedDistance a target /
        (a.acceleration + a.deceleration) := by
      apply div_nonneg _ (by linarith)
      exact mul_nonneg (mul_nonneg (mul_nonneg (by norm_num) hA.le) hD.le) (abs_nonneg _)
    have hs : peakVel a target ^ 2 =
        2 * a.acceleration * a.deceleration * plannedDistance a target /
          (a.acceleration + a.deceleration) := by
      rw [peakVel, Real.sq_sqrt hrad]
    have hs2 : peakVel a target ^ 2 * (a.acceleration + a.deceleration) =
        2 * a.acceleration * a.deceleration * plannedDistance a target := by
      rw [hs]
      field_simp
    refine ⟨?_, fun hb0 => ⟨?_, ?_⟩⟩
    · simp only [dispCruise, dispDecel, triPlan]
      ring
    · simp only [dispAccel, dispCruise, triPlan, hb0]
      field_simp
      ring
    · simp only [dispDecel, triPlan, hb0]
      field_simp
      linear_combination 0.5 * a.acceleration ^ 4 * a.deceleration * hs2
  · rw [move_trap_eq a now target hok htri]
    refine ⟨?_, fun hb0 => ⟨?_, ?_⟩⟩
    · simp only [dispCruise, dispDecel, trapPlan]
      ring
    · simp only [dispAccel, dispCruise, trapPlan, fsAccelDuration, hb0]
      field_simp
      ring
    · simp only [dispDecel, trapPlan, fsAccelDuration, fsAccelDistance,
        fsDecelDuration, fsDecelDistance, hb0]
      field_simp
      ring

/-- C1 witness: concrete continuity of a zero-base-velocity trapezoidal plan at
both phase boundaries, and exact arrival at `moveDuration`. -/
theorem displacement_continuity_witness :
    dispCruise (move initAxis 0 1000) (move initAxis 0 1000).decelStartTime =
      dispDecel (move initAxis 0 1000) (move initAxis 0 1000).decelStartTime ∧
    dispAccel (move initAxis 0 1000) (move initAxis 0 1000).accelDuration =
      dispCruise (move initAxis 0 1000) (move initAxis 0 1000).accelDuration ∧
    dispDecel (move initAxis 0 1000) (move initAxis 0 1000).moveDuration =
      (move initAxis 0 1000).moveDistance := by
  have h := displacement_continuity initAxis 0 1000 ⟨by simp [initAxis], by simp [initAxis]⟩
    (by norm_num [initAxis]) (by norm_num [initAxis]) (by norm_num [initAxis])
  exact ⟨h.1, (h.2 rfl).1, (h.2 rfl).2⟩


end VMC
